import Mathlib

/-!
Shallow embedding of the carom practice-scoring application core.

The repository ships the Playwright end-to-end tests of `carom.html`; the page
script implementing the core components (InputStager, SessionEngine,
ReasonCatalog, HistoryStore, DetailProjector) is not among the sources, so each
definition below is modelled from the spec's component contracts (spec.md
§§3-4), cross-checked against the observable behaviour the tests assert.
-/

namespace Carom

/-! ### InputStager (spec §4.1) -/

/-- A decimal digit of the staged-input buffer. -/
abbrev Digit := Fin 10

/-- Modelled from the spec: the `InputStager` decimal string buffer (the app
script keeping the staged score), held as its sequence of digit characters;
the initial buffer is `"0"`. -/
def initBuf : List Digit := [0]

/-- Modelled from the spec: `pressDigit(d)` appends the digit to the decimal
buffer, collapsing a leading zero (buffer `"0"` plus digit `d` becomes the
one-character buffer `d`). -/
def pressDigit (d : Digit) (b : List Digit) : List Digit :=
  if b = [0] then [d] else b ++ [d]

/-- Modelled from the spec: `backspace()` removes the last character; an
emptied buffer is treated as `"0"`. -/
def backspace (b : List Digit) : List Digit :=
  if b.dropLast = [] then [0] else b.dropLast

/-- Modelled from the spec: `clear()` resets the buffer to `"0"`. -/
def clear (_ : List Digit) : List Digit := [0]

/-- Modelled from the spec: `value()` parses the buffer as a non-negative
decimal integer. -/
def value (b : List Digit) : Nat :=
  b.foldl (fun acc d => 10 * acc + d.val) 0

/-- The buffer as the decimal string shown by the `#add-display` element. -/
def render (b : List Digit) : String :=
  String.join (b.map fun d => toString d.val)

/-! ### SessionEngine data model (spec §3, §4.2) -/

/-- Modelled from the spec: one recorded scoring event of the session. -/
structure Turn where
  index : Nat
  score : Nat
  reason : Option String
deriving DecidableEq, Repr

/-- Modelled from the spec: the in-progress session ledger of the app script. -/
structure SessionState where
  turns : List Turn
  totalScore : Nat
  turnCount : Nat
  zeroCount : Nat
deriving DecidableEq, Repr

/-- The freshly constructed (or reset) session. -/
def emptySession : SessionState := ⟨[], 0, 0, 0⟩

/-- Modelled from the spec: `reset()` clears the ledger regardless of prior
state. -/
def SessionState.reset (_ : SessionState) : SessionState := emptySession

/-- Modelled from the spec: `addTurn(score, reason)` appends a turn with
1-based index `turnCount + 1` and updates the three counters. -/
def SessionState.addTurn (s : SessionState) (score : Nat) (reason : Option String) :
    SessionState where
  turns := s.turns ++ [⟨s.turnCount + 1, score, reason⟩]
  totalScore := s.totalScore + score
  turnCount := s.turnCount + 1
  zeroCount := if score = 0 then s.zeroCount + 1 else s.zeroCount

/-- Modelled from the spec: the live average ("moyenne"), an exact rational,
`0` when no turn has been played. -/
def SessionState.average (s : SessionState) : ℚ :=
  if s.turnCount = 0 then 0 else (s.totalScore : ℚ) / (s.turnCount : ℚ)

/-- Run a sequence of `addTurn` calls (score, reason) left to right. -/
def applyTurns (s : SessionState) (ps : List (Nat × Option String)) : SessionState :=
  ps.foldl (fun t p => t.addTurn p.1 p.2) s

/-- Modelled from the spec (§9): attaching the picker's selection to the most
recently added turn. -/
def setLastReason (sel : Option String) : List Turn → List Turn
  | [] => []
  | [t] => [{ t with reason := sel }]
  | t :: ts => t :: setLastReason sel ts

/-- Modelled from the spec: `attachReason` stores the selection on the
just-added turn; the ledger counters are untouched. -/
def SessionState.attachReason (s : SessionState) (sel : Option String) : SessionState :=
  { s with turns := setLastReason sel s.turns }

/-! ### Rounding and formatting (spec §3, §4.2) -/

/-- Round half away from zero to an integer. -/
def roundHalfAway (q : ℚ) : ℤ :=
  if 0 ≤ q then ⌊q + 1 / 2⌋ else ⌈q - 1 / 2⌉

/-- Round to two decimal places, half away from zero. -/
def round2 (q : ℚ) : ℚ := (roundHalfAway (100 * q) : ℚ) / 100

/-- Zero-pad a sub-hundred value to two characters. -/
def pad2 (n : Nat) : String := if n < 10 then "0" ++ toString n else toString n

/-- Format a non-negative value with exactly two decimals (rounding half away
from zero), as the moyenne displays do. -/
def format2 (q : ℚ) : String :=
  toString ((roundHalfAway (100 * q)).toNat / 100) ++ "." ++
    pad2 ((roundHalfAway (100 * q)).toNat % 100)

/-! ### HistoryStore (spec §3, §4.4) -/

/-- Modelled from the spec: a completed session's full turn detail. -/
structure ArchivedDetail where
  turns : List Turn
  totalScore : Nat
  turnCount : Nat
deriving DecidableEq, Repr

/-- Modelled from the spec: the persisted archive — the `carom_moyennes`
summary sequence and the parallel `carom_game_details` detail sequence. -/
structure HistoryStore where
  moyennes : List ℚ
  gameDetails : List ArchivedDetail
deriving DecidableEq, Repr

/-- The store before any session was archived (both keys absent). -/
def emptyHistory : HistoryStore := ⟨[], []⟩

/-- Modelled from the spec: `archive` atomically appends the summary and the
detail at the same new index of the two sequences. -/
def HistoryStore.archive (h : HistoryStore) (summary : ℚ) (detail : ArchivedDetail) :
    HistoryStore where
  moyennes := h.moyennes ++ [summary]
  gameDetails := h.gameDetails ++ [detail]

/-- Modelled from the spec (§7): `endSession` called with zero turns. -/
inductive NoOpError | noOp
deriving DecidableEq, Repr

/-- Modelled from the spec (§4.2): `endSession` fails with `NoOpError` when
`turnCount == 0`, touching nothing; otherwise it archives the rounded average
together with the verbatim turn detail and resets the session. -/
def endSession (s : SessionState) (h : HistoryStore) :
    Except NoOpError Unit × SessionState × HistoryStore :=
  if s.turnCount = 0 then (Except.error NoOpError.noOp, s, h)
  else (Except.ok (), emptySession,
    h.archive (round2 s.average) ⟨s.turns, s.totalScore, s.turnCount⟩)

/-! ### ReasonCatalog (spec §4.3) -/

abbrev ReasonCatalog := List String

/-- Modelled from the spec: the 5 default labels seeded on first use. The
tests pin their count (5) and the first label ("Too soft"); the remaining
texts are representative. -/
def DEFAULT_REASONS : ReasonCatalog :=
  ["Too soft", "Too hard", "Wrong effect", "Bad angle", "Missed contact"]

/-- Modelled from the spec: read the persisted catalog, seeding the defaults
when none has been persisted yet. -/
def loadCatalog : Option ReasonCatalog → ReasonCatalog
  | none => DEFAULT_REASONS
  | some c => c

/-- Modelled from the spec: `add(label)` appends. -/
def ReasonCatalog.add (c : ReasonCatalog) (label : String) : ReasonCatalog :=
  c ++ [label]

/-- Modelled from the spec: `deleteAt(position)` removes that entry, shifting
subsequent positions down; silent no-op when out of range. -/
def ReasonCatalog.deleteAt (c : ReasonCatalog) (p : Nat) : ReasonCatalog :=
  c.eraseIdx p

/-- A user interaction with the reason picker. -/
inductive ReasonChoice
  | pick (i : Nat)
  | skip
  | dismiss

/-- Modelled from the spec: the picker resolves the interaction to an optional
label — the chosen catalog entry's current text, or none on skip/dismiss. -/
def selectReason (cat : ReasonCatalog) : ReasonChoice → Option String
  | .pick i => cat.get? i
  | .skip => none
  | .dismiss => none

/-! ### DetailProjector (spec §4.5) -/

/-- A display row of the turn table: a turn row, or the reason sub-row nested
under its turn. -/
inductive DetailRow
  | turnRow (turnIndex score cumulativeTotal : Nat)
  | reasonRow (text : String)
deriving DecidableEq, Repr

/-- Modelled from the spec: walk the turns keeping the 1-based index and the
running cumulative total, emitting one row per turn and a reason sub-row
immediately after any turn carrying one. -/
def rowsAux (i acc : Nat) : List Turn → List DetailRow
  | [] => []
  | t :: ts =>
    DetailRow.turnRow (i + 1) t.score (acc + t.score) ::
      match t.reason with
      | some r => DetailRow.reasonRow r :: rowsAux (i + 1) (acc + t.score) ts
      | none => rowsAux (i + 1) (acc + t.score) ts

/-- The turn-table rows derived from one archived session. -/
def ArchivedDetail.rows (d : ArchivedDetail) : List DetailRow :=
  rowsAux 0 0 d.turns

/-- Modelled from the spec: the chart series of running cumulative totals. -/
def seriesAux (acc : Nat) : List Nat → List Nat
  | [] => []
  | s :: ss => (acc + s) :: seriesAux (acc + s) ss

/-- The cumulative-score series of one archived session, one point per turn. -/
def ArchivedDetail.chartSeries (d : ArchivedDetail) : List Nat :=
  seriesAux 0 (d.turns.map Turn.score)

/-- Modelled from the spec's words (§4.5): the rows a single turn contributes —
its own row, followed immediately by a reason sub-row when it carries a
reason. `q` bundles the 0-based position with the turn and its cumulative
total. -/
def specRowBlock (q : Nat × Turn × Nat) : List DetailRow :=
  DetailRow.turnRow (q.1 + 1) q.2.1.score q.2.2 ::
    match q.2.1.reason with
    | some r => [DetailRow.reasonRow r]
    | none => []

/-! ### App-level commit event (spec §2 data flow) -/

/-- The staged buffer and the session, the two pieces the commit event
touches. -/
structure AppState where
  buf : List Digit
  session : SessionState

/-- Modelled from the spec: pressing `+` commits the staged value as a turn
(the reason is attached afterwards by the picker) and resets the staged
buffer to `"0"`. -/
def commit (a : AppState) : AppState where
  buf := [0]
  session := a.session.addTurn (value a.buf) none

/-- A one-turn session used by the witnesses below. -/
def sampleSession : SessionState := emptySession.addTurn 5 none

/-- A one-turn archived detail carrying a reason, used by the witnesses
below. -/
def sampleDetail : ArchivedDetail := ⟨[⟨1, 3, some "Too soft"⟩], 3, 1⟩

/-! ### Helper lemmas -/

theorem applyTurns_cons (s : SessionState) (p : Nat × Option String)
    (ps : List (Nat × Option String)) :
    applyTurns s (p :: ps) = applyTurns (s.addTurn p.1 p.2) ps := rfl

theorem applyTurns_totalScore (ps : List (Nat × Option String)) :
    ∀ s : SessionState, (applyTurns s ps).totalScore = s.totalScore + (ps.map Prod.fst).sum := by
  induction ps with
  | nil => intro s; simp [applyTurns]
  | cons p ps ih =>
    intro s
    rw [applyTurns_cons, ih]
    simp [SessionState.addTurn]
    omega

theorem applyTurns_turnCount (ps : List (Nat × Option String)) :
    ∀ s : SessionState, (applyTurns s ps).turnCount = s.turnCount + ps.length := by
  induction ps with
  | nil => intro s; simp [applyTurns]
  | cons p ps ih =>
    intro s
    rw [applyTurns_cons, ih]
    simp [SessionState.addTurn]
    omega

theorem applyTurns_zeroCount (ps : List (Nat × Option String)) :
    ∀ s : SessionState,
      (applyTurns s ps).zeroCount = s.zeroCount + ps.countP (fun p => p.1 == 0) := by
  induction ps with
  | nil => intro s; simp [applyTurns]
  | cons p ps ih =>
    intro s
    rw [applyTurns_cons, ih, List.countP_cons]
    by_cases hz : p.1 = 0
    · simp [SessionState.addTurn, hz]
      omega
    · simp [SessionState.addTurn, hz]

/-! ### Claim theorems -/

/-- C1: for every sequence of `addTurn(s_i, r_i)` calls on a freshly reset
engine, `totalScore` is the sum of the scores, `turnCount` the number of
turns, `zeroCount` the number of zero scores, and `average` is
`totalScore / turnCount` (0 for an empty session). -/
theorem addTurn_stats (prior : SessionState) (ps : List (Nat × Option String)) :
    (applyTurns prior.reset ps).totalScore = (ps.map Prod.fst).sum ∧
    (applyTurns prior.reset ps).turnCount = ps.length ∧
    (applyTurns prior.reset ps).zeroCount = ps.countP (fun p => p.1 == 0) ∧
    (applyTurns prior.reset ps).average =
      if ps.length = 0 then 0 else ((ps.map Prod.fst).sum : ℚ) / (ps.length : ℚ) := by
  have h1 := applyTurns_totalScore ps prior.reset
  have h2 := applyTurns_turnCount ps prior.reset
  have h3 := applyTurns_zeroCount ps prior.reset
  rw [show prior.reset.totalScore = 0 from rfl, Nat.zero_add] at h1
  rw [show prior.reset.turnCount = 0 from rfl, Nat.zero_add] at h2
  rw [show prior.reset.zeroCount = 0 from rfl, Nat.zero_add] at h3
  refine ⟨h1, h2, h3, ?_⟩
  rw [SessionState.average, h1, h2]

/-- C6: `reset()` always yields the empty session — all counters zero, no
turns — and is idempotent. -/
theorem reset_spec (s : SessionState) :
    s.reset.totalScore = 0 ∧ s.reset.turnCount = 0 ∧ s.reset.zeroCount = 0 ∧
    s.reset.turns = [] ∧ s.reset.reset = s.reset :=
  ⟨rfl, rfl, rfl, rfl, rfl⟩

/-- C10: the commit event adds the staged value as a turn and resets the
staged buffer back to `"0"`, so the next turn's staged value starts at 0. -/
theorem commit_resets_stager (a : AppState) :
    (commit a).buf = [0] ∧ value (commit a).buf = 0 ∧ render (commit a).buf = "0" ∧
    (commit a).session = a.session.addTurn (value a.buf) none :=
  ⟨rfl, rfl, rfl, rfl⟩

/-- C3: `endSession()` with `turnCount == 0` fails with `NoOpError` and leaves
the session state and the persisted archive (hence any serialization of it)
unchanged. -/
theorem endSession_noop (s : SessionState) (h : HistoryStore) (h0 : s.turnCount = 0) :
    endSession s h = (Except.error NoOpError.noOp, s, h) ∧
    (endSession s h).2.2 = h ∧ (endSession s h).2.1 = s ∧
    ∀ serialize : HistoryStore → String, serialize (endSession s h).2.2 = serialize h := by
  have he : endSession s h = (Except.error NoOpError.noOp, s, h) := by
    simp [endSession, h0]
  exact ⟨he, by rw [he], by rw [he], fun f => by rw [he]⟩

theorem endSession_noop_witness :
    emptySession.turnCount = 0 ∧
    (endSession emptySession emptyHistory
        = (Except.error NoOpError.noOp, emptySession, emptyHistory) ∧
      (endSession emptySession emptyHistory).2.2 = emptyHistory ∧
      (endSession emptySession emptyHistory).2.1 = emptySession ∧
      ∀ serialize : HistoryStore → String,
        serialize (endSession emptySession emptyHistory).2.2 = serialize emptyHistory) :=
  ⟨rfl, endSession_noop emptySession emptyHistory rfl⟩

/-- C2: `endSession()` with `turnCount > 0` succeeds, appends exactly one
summary and one detail at the same new index (preserving the equal-length
invariant of the two archive sequences), and resets the session. -/
theorem endSession_archives (s : SessionState) (h : HistoryStore) (hpos : 0 < s.turnCount) :
    (endSession s h).1 = Except.ok () ∧
    (endSession s h).2.2.moyennes = h.moyennes ++ [round2 s.average] ∧
    (endSession s h).2.2.gameDetails = h.gameDetails ++ [⟨s.turns, s.totalScore, s.turnCount⟩] ∧
    (endSession s h).2.2.moyennes.length = h.moyennes.length + 1 ∧
    (endSession s h).2.2.gameDetails.length = h.gameDetails.length + 1 ∧
    (endSession s h).2.2.moyennes[h.moyennes.length]? = some (round2 s.average) ∧
    (endSession s h).2.2.gameDetails[h.gameDetails.length]?
      = some ⟨s.turns, s.totalScore, s.turnCount⟩ ∧
    (h.moyennes.length = h.gameDetails.length →
      (endSession s h).2.2.moyennes.length = (endSession s h).2.2.gameDetails.length) ∧
    (endSession s h).2.1 = emptySession := by
  have hne : ¬s.turnCount = 0 := Nat.pos_iff_ne_zero.mp hpos
  have he : endSession s h = (Except.ok (), emptySession,
      h.archive (round2 s.average) ⟨s.turns, s.totalScore, s.turnCount⟩) := by
    simp [endSession, hne]
  rw [he]
  refine ⟨rfl, rfl, rfl, by simp [HistoryStore.archive], by simp [HistoryStore.archive],
    ?_, ?_, ?_, rfl⟩
  · exact List.getElem?_concat_length h.moyennes _
  · exact List.getElem?_concat_length h.gameDetails _
  · intro hlen
    simp [HistoryStore.archive, hlen]

theorem endSession_archives_witness :
    0 < sampleSession.turnCount ∧
    ((endSession sampleSession emptyHistory).1 = Except.ok () ∧
      (endSession sampleSession emptyHistory).2.2.moyennes
        = emptyHistory.moyennes ++ [round2 sampleSession.average] ∧
      (endSession sampleSession emptyHistory).2.2.gameDetails
        = emptyHistory.gameDetails
            ++ [⟨sampleSession.turns, sampleSession.totalScore, sampleSession.turnCount⟩] ∧
      (endSession sampleSession emptyHistory).2.2.moyennes.length
        = emptyHistory.moyennes.length + 1 ∧
      (endSession sampleSession emptyHistory).2.2.gameDetails.length
        = emptyHistory.gameDetails.length + 1 ∧
      (endSession sampleSession emptyHistory).2.2.moyennes[emptyHistory.moyennes.length]?
        = some (round2 sampleSession.average) ∧
      (endSession sampleSession emptyHistory).2.2.gameDetails[emptyHistory.gameDetails.length]?
        = some ⟨sampleSession.turns, sampleSession.totalScore, sampleSession.turnCount⟩ ∧
      (emptyHistory.moyennes.length = emptyHistory.gameDetails.length →
        (endSession sampleSession emptyHistory).2.2.moyennes.length
          = (endSession sampleSession emptyHistory).2.2.gameDetails.length) ∧
      (endSession sampleSession emptyHistory).2.1 = emptySession) :=
  ⟨by decide, endSession_archives sampleSession emptyHistory (by decide)⟩

theorem value_append (b : List Digit) (d : Digit) :
    value (b ++ [d]) = 10 * value b + d.val := by
  simp [value, List.foldl_append]

theorem value_replicate_nine (n : Nat) : n ≤ value (List.replicate n (9 : Digit)) := by
  induction n with
  | zero => exact Nat.zero_le _
  | succ n ih =>
    rw [List.replicate_succ', value_append]
    rw [show ((9 : Digit)).val = 9 from rfl]
    omega

/-- C4: the average is kept exact (an exact rational, `totalScore/turnCount`)
and rounded only at formatting boundaries: 10/3 displays as "3.33", the
summary stored for a 10/2 session is the exact value 5, and an empty session
displays as "0.00". -/
theorem rounding_spec :
    (applyTurns emptySession [(2, none), (5, none), (3, none)]).average = 10 / 3 ∧
    format2 (applyTurns emptySession [(2, none), (5, none), (3, none)]).average = "3.33" ∧
    (endSession (applyTurns emptySession [(4, none), (6, none)]) emptyHistory).2.2.moyennes
      = [5] ∧
    format2 emptySession.average = "0.00" ∧
    ∀ s : SessionState, s.turnCount ≠ 0 →
      s.average = (s.totalScore : ℚ) / (s.turnCount : ℚ) := by
  have h3 : (applyTurns emptySession [(2, none), (5, none), (3, none)]).average = 10 / 3 := by
    norm_num [applyTurns, List.foldl, SessionState.addTurn, SessionState.average, emptySession]
  refine ⟨h3, ?_, ?_, ?_, ?_⟩
  · rw [format2, h3]
    rw [show roundHalfAway (100 * ((10 : ℚ) / 3)) = 333 from by norm_num [roundHalfAway]]
    decide
  · norm_num [endSession, applyTurns, List.foldl, SessionState.addTurn, SessionState.average,
      emptySession, HistoryStore.archive, emptyHistory, round2, roundHalfAway]
  · rw [format2, show emptySession.average = 0 from rfl]
    rw [show roundHalfAway (100 * (0 : ℚ)) = 0 from by norm_num [roundHalfAway]]
    decide
  · intro s hs
    simp [SessionState.average, hs]

theorem rounding_spec_witness :
    sampleSession.turnCount ≠ 0 ∧
    sampleSession.average = (sampleSession.totalScore : ℚ) / (sampleSession.turnCount : ℚ) :=
  ⟨by decide, rounding_spec.2.2.2.2 sampleSession (by decide)⟩

/-- C7: `pressDigit` appends to the decimal buffer collapsing the leading
zero (buffer "0" + digit 5 renders "5", not "05"), `backspace` drops the last
character treating an emptied buffer as "0", `clear` resets the buffer to
"0", and `value` parses the buffer as a non-negative integer with no upper
bound enforced. -/
theorem inputStager_spec :
    (∀ d : Digit, pressDigit d [0] = [d]) ∧
    (∀ (b : List Digit) (d : Digit), b ≠ [0] → pressDigit d b = b ++ [d]) ∧
    (∀ (b : List Digit) (d : Digit), value (pressDigit d b) = 10 * value b + d.val) ∧
    render (pressDigit 5 [0]) = "5" ∧ render (pressDigit 5 [0]) ≠ "05" ∧
    (∀ (b : List Digit) (d : Digit), backspace (b ++ [d]) = if b = [] then [0] else b) ∧
    backspace [] = [0] ∧
    (∀ b : List Digit, clear b = [0] ∧ value (clear b) = 0) ∧
    ∀ bound : Nat, ∃ b : List Digit, bound < value b := by
  refine ⟨fun d => by simp [pressDigit], fun b d hb => by simp [pressDigit, hb], ?_,
    by decide, by decide, ?_, by decide, fun b => ⟨rfl, rfl⟩, ?_⟩
  · intro b d
    by_cases hb : b = [0]
    · subst hb
      simp [pressDigit, value]
    · simp [pressDigit, hb, value_append]
  · intro b d
    by_cases hb : b = []
    · subst hb
      simp [backspace]
    · simp [backspace, hb]
  · intro bound
    refine ⟨List.replicate (bound + 1) (9 : Digit), ?_⟩
    have := value_replicate_nine (bound + 1)
    omega

theorem inputStager_spec_witness :
    ([1, 5] : List Digit) ≠ [0] ∧ pressDigit 3 [1, 5] = [1, 5, 3] :=
  ⟨by decide, inputStager_spec.2.1 [1, 5] 3 (by decide)⟩

/-- C8: the catalog seeds exactly 5 default labels when none are persisted;
`add` appends one entry whose text ends up last; `deleteAt` removes the entry
at the position and shifts the subsequent entries down by one. -/
theorem reasonCatalog_spec :
    loadCatalog none = DEFAULT_REASONS ∧
    DEFAULT_REASONS.length = 5 ∧
    (∀ (cat : ReasonCatalog) (label : String),
      (cat.add label).length = cat.length + 1 ∧ (cat.add label).getLast? = some label) ∧
    ∀ (cat : ReasonCatalog) (p : Nat), p < cat.length →
      (cat.deleteAt p).length = cat.length - 1 ∧
      (∀ j, j < p → (cat.deleteAt p)[j]? = cat[j]?) ∧
      (∀ j, p ≤ j → (cat.deleteAt p)[j]? = cat[j + 1]?) := by
  refine ⟨rfl, rfl, ?_, ?_⟩
  · intro cat label
    exact ⟨by simp [ReasonCatalog.add], by simp [ReasonCatalog.add]⟩
  · intro cat p hp
    refine ⟨List.length_eraseIdx_of_lt hp, ?_, ?_⟩
    · intro j hj
      exact List.getElem?_eraseIdx_of_lt cat p j hj
    · intro j hj
      exact List.getElem?_eraseIdx_of_ge cat p j hj

theorem reasonCatalog_spec_witness :
    (0 : Nat) < DEFAULT_REASONS.length ∧ (0 : Nat) ≤ 0 ∧
    (DEFAULT_REASONS.deleteAt 0)[0]? = DEFAULT_REASONS[1]? :=
  ⟨by decide, by decide,
    (reasonCatalog_spec.2.2.2 DEFAULT_REASONS 0 (by decide)).2.2 0 (by decide)⟩

theorem setLastReason_append (sel : Option String) (t : Turn) :
    ∀ xs : List Turn, setLastReason sel (xs ++ [t]) = xs ++ [{ t with reason := sel }] := by
  intro xs
  induction xs with
  | nil => rfl
  | cons x xs ih =>
    cases xs with
    | nil => rfl
    | cons y ys =>
      show x :: setLastReason sel ((y :: ys) ++ [t])
          = x :: ((y :: ys) ++ [{ t with reason := sel }])
      rw [ih]

/-- C9: after a turn is committed, picking catalog entry `i` attaches that
label's current text as the just-added turn's reason, while skip or dismissal
attaches no reason; the turn (reason text included, copied by value) is what
`endSession` places in the archived detail record. -/
theorem reasonPicker_spec (s : SessionState) (score : Nat) (cat : ReasonCatalog)
    (i : Nat) (hi : i < cat.length) (h : HistoryStore) :
    ((s.addTurn score none).attachReason (selectReason cat (ReasonChoice.pick i))).turns.getLast?
      = some ⟨s.turnCount + 1, score, some cat[i]⟩ ∧
    ((s.addTurn score none).attachReason (selectReason cat ReasonChoice.skip)).turns.getLast?
      = some ⟨s.turnCount + 1, score, none⟩ ∧
    ((s.addTurn score none).attachReason (selectReason cat ReasonChoice.dismiss)).turns.getLast?
      = some ⟨s.turnCount + 1, score, none⟩ ∧
    (endSession ((s.addTurn score none).attachReason
        (selectReason cat (ReasonChoice.pick i))) h).2.2.gameDetails.getLast?
      = some ⟨s.turns ++ [⟨s.turnCount + 1, score, some cat[i]⟩],
          s.totalScore + score, s.turnCount + 1⟩ := by
  have hsel : selectReason cat (ReasonChoice.pick i) = some cat[i] := by
    simp [selectReason, List.get?_eq_getElem?, hi]
  have hturns : ∀ sel : Option String,
      ((s.addTurn score none).attachReason sel).turns
        = s.turns ++ [⟨s.turnCount + 1, score, sel⟩] := by
    intro sel
    show setLastReason sel (s.turns ++ [⟨s.turnCount + 1, score, none⟩]) = _
    rw [setLastReason_append]
  refine ⟨?_, ?_, ?_, ?_⟩
  · rw [hsel, hturns, List.getLast?_concat]
  · rw [show selectReason cat ReasonChoice.skip = none from rfl, hturns,
      List.getLast?_concat]
  · rw [show selectReason cat ReasonChoice.dismiss = none from rfl, hturns,
      List.getLast?_concat]
  · have hcount : ((s.addTurn score none).attachReason
        (selectReason cat (ReasonChoice.pick i))).turnCount = s.turnCount + 1 := rfl
    rw [endSession, if_neg (by rw [hcount]; exact Nat.succ_ne_zero _)]
    show (h.gameDetails ++ [_]).getLast? = _
    rw [List.getLast?_concat]
    rw [show ((s.addTurn score none).attachReason
        (selectReason cat (ReasonChoice.pick i))).totalScore = s.totalScore + score from rfl,
      hcount, hturns, hsel]

theorem reasonPicker_spec_witness :
    0 < DEFAULT_REASONS.length ∧
    ((emptySession.addTurn 2 none).attachReason
        (selectReason DEFAULT_REASONS (ReasonChoice.pick 0))).turns.getLast?
      = some ⟨1, 2, some "Too soft"⟩ :=
  ⟨by decide,
    (reasonPicker_spec emptySession 2 DEFAULT_REASONS 0 (by decide) emptyHistory).1⟩

theorem seriesAux_eq_map (ss : List Nat) :
    ∀ acc : Nat, seriesAux acc ss
      = (List.range ss.length).map (fun i => acc + (ss.take (i + 1)).sum) := by
  induction ss with
  | nil => intro acc; simp [seriesAux]
  | cons s ss ih =>
    intro acc
    rw [show seriesAux acc (s :: ss) = (acc + s) :: seriesAux (acc + s) ss from rfl, ih]
    rw [List.length_cons, List.range_succ_eq_map, List.map_cons, List.map_map]
    refine congrArg₂ (· :: ·) (by simp) ?_
    apply List.map_congr_left
    intro a _
    simp only [Function.comp, List.take_succ_cons, List.sum_cons]
    omega

theorem seriesAux_head_le (acc : Nat) (ss : List Nat) :
    ∀ y ∈ (seriesAux acc ss).head?, acc ≤ y := by
  cases ss with
  | nil => simp [seriesAux]
  | cons s ss => simp [seriesAux]

theorem seriesAux_chain (ss : List Nat) :
    ∀ acc : Nat, List.Chain' (· ≤ ·) (seriesAux acc ss) := by
  induction ss with
  | nil => intro acc; simp [seriesAux]
  | cons s ss ih =>
    intro acc
    rw [show seriesAux acc (s :: ss) = (acc + s) :: seriesAux (acc + s) ss from rfl,
      List.chain'_cons']
    exact ⟨seriesAux_head_le (acc + s) ss, ih (acc + s)⟩

theorem rowsAux_length (ts : List Turn) :
    ∀ i acc : Nat,
      (rowsAux i acc ts).length = ts.length + ts.countP (fun t => t.reason.isSome) := by
  induction ts with
  | nil => intro i acc; simp [rowsAux]
  | cons t ts ih =>
    intro i acc
    rw [List.countP_cons]
    cases hr : t.reason with
    | none =>
      simp [rowsAux, hr, ih]
      omega
    | some r =>
      simp [rowsAux, hr, ih]
      omega

theorem rowsAux_eq_bind (ts : List Turn) :
    ∀ i acc : Nat,
      rowsAux i acc ts
        = (List.enumFrom i (ts.zip (seriesAux acc (ts.map Turn.score)))).flatMap specRowBlock := by
  induction ts with
  | nil => intro i acc; simp [rowsAux, seriesAux]
  | cons t ts ih =>
    intro i acc
    cases hr : t.reason with
    | none =>
      simp only [rowsAux, hr, List.map_cons, seriesAux, List.zip_cons_cons,
        List.enumFrom_cons, List.flatMap_cons, specRowBlock, ih]
      simp
    | some r =>
      simp only [rowsAux, hr, List.map_cons, seriesAux, List.zip_cons_cons,
        List.enumFrom_cons, List.flatMap_cons, specRowBlock, ih]
      simp

/-- C5: for every archived record, the projector's chart series is exactly
the prefix-sum sequence of the turn scores (monotonically non-decreasing),
the row list is one row per turn — carrying the 1-based index, the score and
the cumulative total — with one reason sub-row immediately after each turn
that carries a reason, and the row count is `turnCount` plus the number of
turns with a reason. -/
theorem detailProjector_spec (d : ArchivedDetail) (hwf : d.turnCount = d.turns.length) :
    d.chartSeries
      = (List.range d.turns.length).map
          (fun i => ((d.turns.map Turn.score).take (i + 1)).sum) ∧
    List.Chain' (· ≤ ·) d.chartSeries ∧
    d.rows = (List.enumFrom 0 (d.turns.zip d.chartSeries)).flatMap specRowBlock ∧
    d.rows.length = d.turnCount + d.turns.countP (fun t => t.reason.isSome) := by
  refine ⟨?_, ?_, ?_, ?_⟩
  · rw [ArchivedDetail.chartSeries, seriesAux_eq_map]
    simp [List.length_map]
  · exact seriesAux_chain _ 0
  · rw [ArchivedDetail.rows, rowsAux_eq_bind, ArchivedDetail.chartSeries]
  · rw [ArchivedDetail.rows, rowsAux_length, hwf]

theorem detailProjector_spec_witness :
    sampleDetail.turnCount = sampleDetail.turns.length ∧
    (sampleDetail.chartSeries
        = (List.range sampleDetail.turns.length).map
            (fun i => ((sampleDetail.turns.map Turn.score).take (i + 1)).sum) ∧
      List.Chain' (· ≤ ·) sampleDetail.chartSeries ∧
      sampleDetail.rows
        = (List.enumFrom 0 (sampleDetail.turns.zip sampleDetail.chartSeries)).flatMap
            specRowBlock ∧
      sampleDetail.rows.length
        = sampleDetail.turnCount + sampleDetail.turns.countP (fun t => t.reason.isSome)) :=
  ⟨rfl, detailProjector_spec sampleDetail rfl⟩

end Carom
